import Mathlib

/-!
Shallow embedding of `lib/uploader.py` (nodemcu-uploader).

Bytes are modelled as `Nat`; Python 2 byte strings become `List Nat`.
The serial port (an external collaborator) is modelled as an explicit
state: a configurable read timeout and baud rate, two modem-control
lines, an input stream of bytes still to be delivered by the device,
and the log of all bytes the host has written.  Blocking reads with a
timeout are modelled by fuel: one unit of fuel is one poll interval,
and an exhausted input stream yields empty reads, exactly as a timed
out `serial.read` returns the empty string.  Calls to `log.error` are
recorded in `errorLog` (the interpolated response data, or the literal
message when none is interpolated); `log.info`/`log.debug` calls have
no observable effect and are not recorded.
-/

set_option maxRecDepth 100000

namespace NodeMCU

/-- Bytes of a literal Python string (ASCII code points). -/
def strBytes (s : String) : List Nat := s.data.map Char.toNat

/-- State of the serial transport (`self._port`).  `timeout` is kept in
microseconds, so the session default of 5 s is 5000000 and the expect
loop's 0.0001 s poll timeout is 100. -/
structure Port where
  timeout : Nat
  baud : Nat
  rts : Bool
  dtr : Bool
  input : List Nat
  output : List Nat
  errorLog : List (List Nat)
  deriving DecidableEq, Repr

/-- A freshly opened port as `Uploader.__init__` configures it
(uploader.py:33-39): 9600 baud, 5 s timeout, RTS/DTR deasserted,
nothing written yet; `input` is the byte stream the device will
produce. -/
def mkPort (input : List Nat) : Port :=
  { timeout := 5000000, baud := 9600, rts := false, dtr := false,
    input := input, output := [], errorLog := [] }

/-- Model of `Uploader.write` (uploader.py:79-85): write bytes and flush. -/
def write (out : List Nat) (p : Port) : Port :=
  { p with output := p.output ++ out }

/-- Model of `Uploader.writeln` (uploader.py:87-88): write `output + '\n'`. -/
def writeln (out : List Nat) (p : Port) : Port :=
  write (out ++ [10]) p

/-- The polling loop of `Uploader.expect` (uploader.py:71-73):
`while not data.endswith(exp) and time.time() <= end: data += self._port.read()`.
One unit of fuel is one iteration (the wall-clock budget divided by the
poll timeout); a read on an exhausted input returns nothing, like a
timed-out `read()`. -/
def expectLoop (exp : List Nat) (fuel : Nat) (data : List Nat) (p : Port) :
    List Nat × Port :=
  if List.isSuffixOf exp data then (data, p)
  else
    match fuel with
    | 0 => (data, p)
    | fuel + 1 =>
      match p.input with
      | [] => expectLoop exp fuel data p
      | b :: rest => expectLoop exp fuel (data ++ [b]) { p with input := rest }

/-- Model of `Uploader.expect` (uploader.py:60-77): save the configured timeout,
set the 100 microsecond poll timeout (only when different, as in the
source), run the accumulate loop, restore the saved timeout, and return
the accumulated data. -/
def expect (exp : List Nat) (fuel : Nat) (p : Port) : List Nat × Port :=
  let timer := p.timeout
  let p1 := if p.timeout ≠ 100 then { p with timeout := 100 } else p
  let r := expectLoop exp fuel [] p1
  (r.1, { r.2 with timeout := timer })

/-- Model of `Uploader.exchange` (uploader.py:90-92): `writeln` then `expect`
with the default prompt `'> '`. -/
def exchange (out : List Nat) (fuel : Nat) (p : Port) : List Nat × Port :=
  expect (strBytes "> ") fuel (writeln out p)

/-- Model of `Uploader.got_ack` (uploader.py:215-219): read one byte
(`self._port.read(1)`, the empty string when nothing arrives) and
compare it with ACK = `'\x06'`. -/
def got_ack (p : Port) : Bool × Port :=
  match p.input with
  | [] => (false, p)
  | b :: rest => (b == 6, { p with input := rest })

/-- The frame `data` built by `Uploader.write_chunk` (uploader.py:233-237):
marker byte `'\x01'`, the length byte `chr(len(chunk))` (chunk lengths
in this protocol are at most 128, so the byte value is the length), the
payload, and space padding up to 128 payload bytes when shorter. -/
def chunk_frame (chunk : List Nat) : List Nat :=
  let data := 1 :: chunk.length :: chunk
  if chunk.length < 128 then data ++ List.replicate (128 - chunk.length) 32
  else data

/-- Model of `Uploader.write_chunk` (uploader.py:231-241): write the frame, then
`got_ack`. -/
def write_chunk (chunk : List Nat) (p : Port) : Bool × Port :=
  got_ack (write (chunk_frame chunk) p)

/-- The chunk slicing performed by the loop of `Uploader.write_file`
(uploader.py:162-175): `pos` advances by `chunk_size = 128` and each
slice is `content[pos:pos+rest]` with `rest = min(128, len - pos)`,
i.e. the successive groups of at most 128 bytes, in order.  The loop
runs at most `len(content)` times, which bounds the structural fuel of
`splitChunksGo`; `splitChunks` always supplies enough fuel. -/
def splitChunksGo : Nat → List Nat → List (List Nat)
  | _, [] => []
  | 0, _ :: _ => []
  | fuel + 1, content => content.take 128 :: splitChunksGo fuel (content.drop 128)

def splitChunks (content : List Nat) : List (List Nat) :=
  splitChunksGo content.length content

/-- Outcome of `Uploader.write_file`; the source signals these by
logging and returning early, so the early returns are made explicit. -/
inductive WriteResult where
  | success
  | errEsp
  | errNoFilenameAck
  | errBadChunk
  deriving DecidableEq, Repr

/-- The per-chunk loop of `Uploader.write_file` (uploader.py:164-175):
write each chunk; on a missing/NACKed acknowledgement run `expect()`
(whose result is logged with `log.error`) and abort. -/
def writeChunksLoop (fuel : Nat) : List (List Nat) → Port → Bool × Port
  | [], p => (true, p)
  | c :: cs, p =>
    let r := write_chunk c p
    if r.1 then writeChunksLoop fuel cs r.2
    else
      let e := expect (strBytes "> ") fuel r.2
      (false, { e.2 with errorLog := e.2.errorLog ++ [e.1] })

/-- Model of `os.path.basename` (POSIX): everything after the last `'/'`. -/
def basename (path : List Nat) : List Nat :=
  (path.reverse.takeWhile (fun b => b ≠ 47)).reverse

/-- Destination selection of `Uploader.write_file` (uploader.py:141-143):
`filename = os.path.basename(path); if not destination: destination = filename`. -/
def write_file_destination (path destination : List Nat) : List Nat :=
  if destination = [] then basename path else destination

/-- Model of `Uploader.write_file` with `verify='none'` (uploader.py:140-195):
send `recv()`, expect the `'C> '` ready prompt, send the destination
filename NUL-terminated, require an ACK, stream the chunks through
`writeChunksLoop`, then send the zero-length terminator chunk, whose
acknowledgement result is discarded (`self.write_chunk('')`, line 179).
The local file's bytes are passed in as `content`. -/
def write_file (fuel : Nat) (path destination content : List Nat) (p : Port) :
    WriteResult × Port :=
  let dest := write_file_destination path destination
  let p := writeln (strBytes "recv()") p
  let r := expect (strBytes "C> ") fuel p
  if ¬ (List.isSuffixOf (strBytes "C> ") r.1) then
    (.errEsp, { r.2 with errorLog := r.2.errorLog ++ [r.1] })
  else
    let p := write (dest ++ [0]) r.2
    let a := got_ack p
    if ¬ a.1 then
      (.errNoFilenameAck,
        { a.2 with errorLog :=
            a.2.errorLog ++ [strBytes "did not ack destination filename"] })
    else
      let l := writeChunksLoop fuel (splitChunks content) a.2
      if l.1 then
        let z := write_chunk [] l.2
        (.success, z.2)
      else
        (.errBadChunk, l.2)

/-- Decimal digits of a natural number, as ASCII bytes (for the `%s` /
`%d` interpolations of the source). -/
def natDigits (n : Nat) : List Nat := (Nat.toDigits 10 n).map Char.toNat

/-- Session state: the port plus `self.line_number` (uploader.py:58). -/
structure Uploader where
  port : Port
  line_number : Nat
  deriving DecidableEq, Repr

/-- Model of `Uploader.__init__` (uploader.py:32-58): open the port at 9600 baud
with a 5 s timeout, deassert RTS/DTR, `exchange(';')`, print the sync
marker, `expect('%sync%\r\n> ')` — the source discards this expect's
result, so it is returned here as the second component for inspection —
then optionally renegotiate the baud rate, and set `line_number = 0`.
`input` is the byte stream the device will produce. -/
def uploader_init (fuel baud : Nat) (input : List Nat) : Uploader × List Nat :=
  let p := mkPort input
  let p := { p with rts := false, dtr := false }
  let r1 := exchange (strBytes ";") fuel p
  let p := writeln (strBytes "print(\"%sync%\");") r1.2
  let r2 := expect (strBytes "%sync%\r\n> ") fuel p
  let p := r2.2
  if baud ≠ 9600 then
    let p := writeln (strBytes "uart.setup(0," ++ natDigits baud
      ++ strBytes ",8,0,1,1)") p
    let p := { p with baud := baud }
    let r3 := exchange [] fuel p
    let r4 := exchange [] fuel r3.2
    ({ port := r4.2, line_number := 0 }, r2.1)
  else
    ({ port := p, line_number := 0 }, r2.1)

/-! ### Download protocol (uploader.py:118-130)

`download_file` issues one `exchange` per iteration; each element of
`responses` is the string returned by the corresponding `exchange`
call.  Python's `d.split('\n', 2)`, `int(size)` and slicing are
modelled below; the `ValueError` raised by unpacking a short split or
by `int` on a non-numeral becomes `none` (the operation aborts with no
result). -/

/-- Split a byte string at the first occurrence of `b`, `none` when `b`
does not occur (one step of Python's bounded `split`). -/
def splitOnFirst (b : Nat) : List Nat → Option (List Nat × List Nat)
  | [] => none
  | x :: xs =>
    if x = b then some ([], xs)
    else (splitOnFirst b xs).map (fun r => (x :: r.1, r.2))

/-- Model of `d.split('\n', 2)` unpacked into exactly three components
(uploader.py:124); `none` models the `ValueError` when `d` holds fewer
than two newlines. -/
def split3 (d : List Nat) : Option (List Nat × List Nat × List Nat) :=
  match splitOnFirst 10 d with
  | none => none
  | some (a, r) =>
    match splitOnFirst 10 r with
    | none => none
    | some (b, c) => some (a, b, c)

def isDigit (b : Nat) : Bool := decide (48 ≤ b ∧ b ≤ 57)

def isPySpace (b : Nat) : Bool :=
  decide (b = 32 ∨ b = 9 ∨ b = 10 ∨ b = 13 ∨ b = 11 ∨ b = 12)

/-- Value of a non-empty string of decimal digits. -/
def digitsVal (s : List Nat) : Option Nat :=
  if s = [] then none
  else if s.all isDigit then
    some (s.foldl (fun acc b => acc * 10 + (b - 48)) 0)
  else none

/-- Python `int(s)`: strip surrounding whitespace, optional sign,
decimal digits; `none` models the `ValueError` on anything else. -/
def pyInt (s : List Nat) : Option Int :=
  let t := s.dropWhile isPySpace
  let t := (t.reverse.dropWhile isPySpace).reverse
  match t with
  | 43 :: ds => (digitsVal ds).map (fun n => (n : Int))
  | 45 :: ds => (digitsVal ds).map (fun n => -(n : Int))
  | ds => (digitsVal ds).map (fun n => (n : Int))

/-- Python slice `l[0:n]` for a possibly negative `n`. -/
def pySliceTo (n : Int) (l : List Nat) : List Nat :=
  if 0 ≤ n then l.take n.toNat else l.take (l.length - n.natAbs)

/-- The `while True` loop of `Uploader.download_file`
(uploader.py:122-128), one response consumed per iteration:
split the response, append `tmp_data[0:256]`, advance `bytes_read` by
`chunk_size = 256`, stop when `bytes_read > int(size)`.  Fuel bounds
the iteration count; the inputs used by the theorems below always
terminate within their fuel. -/
def downloadLoop (fuel : Nat) (responses : List (List Nat))
    (bytes_read : Nat) (data : List Nat) : Option (List Nat × Int) :=
  match fuel with
  | 0 => none
  | fuel + 1 =>
    let d := responses.headD []
    match split3 d with
    | none => none
    | some (_, sizeLine, tmp_data) =>
      let data := data ++ pySliceTo 256 tmp_data
      let bytes_read := bytes_read + 256
      match pyInt sizeLine with
      | none => none
      | some size =>
        if (bytes_read : Int) > size then some (data, size)
        else downloadLoop fuel responses.tail bytes_read data

/-- Model of `Uploader.download_file` (uploader.py:118-130): run the loop from
offset 0, then truncate to `data[0:int(size)]`. -/
def download_file (fuel : Nat) (responses : List (List Nat)) :
    Option (List Nat) :=
  match downloadLoop fuel responses 0 [] with
  | none => none
  | some (data, size) => some (pySliceTo size data)

/-- Destination selection of `Uploader.read_file` (uploader.py:132-134):
`if not destination: destination = filename`. -/
def read_file_destination (filename destination : List Nat) : List Nat :=
  if destination = [] then filename else destination

/-- Model of `Uploader.read_file` (uploader.py:132-138): pick the local
destination path, download.  Writing the local file is an external
filesystem effect; the model returns the path that would be written
together with the downloaded data. -/
def read_file (fuel : Nat) (filename destination : List Nat)
    (responses : List (List Nat)) : List Nat × Option (List Nat) :=
  (read_file_destination filename destination, download_file fuel responses)

/-! ### Admin operations (uploader.py:244-289) -/

/-- Model of `Uploader.file_list` (uploader.py:244-248). -/
def file_list (fuel : Nat) (p : Port) : List Nat × Port :=
  exchange (strBytes "for key,value in pairs(file.list()) do print(key,value) end")
    fuel p

/-- Model of `Uploader.file_do` (uploader.py:250-254). -/
def file_do (f : List Nat) (fuel : Nat) (p : Port) : List Nat × Port :=
  exchange (strBytes "dofile(\"" ++ f ++ strBytes "\")") fuel p

/-- Python's substring test `needle in hay`. -/
def containsSub (needle hay : List Nat) : Bool := decide (needle <:+: hay)

/-- Model of `Uploader.file_format` (uploader.py:256-263): exchange
`file.format()`; when `'format done'` does not occur in the response it
is logged with `log.error`, otherwise with `log.info`; the response is
returned either way. -/
def file_format (fuel : Nat) (p : Port) : List Nat × Port :=
  let r := exchange (strBytes "file.format()") fuel p
  if ¬ (containsSub (strBytes "format done") r.1) then
    (r.1, { r.2 with errorLog := r.2.errorLog ++ [r.1] })
  else
    (r.1, r.2)

/-- Model of `Uploader.node_heap` (uploader.py:265-269). -/
def node_heap (fuel : Nat) (p : Port) : List Nat × Port :=
  exchange (strBytes "print(node.heap())") fuel p

/-- Model of `Uploader.node_restart` (uploader.py:271-275). -/
def node_restart (fuel : Nat) (p : Port) : List Nat × Port :=
  exchange (strBytes "node.restart()") fuel p

/-- Model of `Uploader.file_compile` (uploader.py:277-282). -/
def file_compile (path : List Nat) (fuel : Nat) (p : Port) : List Nat × Port :=
  exchange (strBytes "node.compile(\"" ++ path ++ strBytes "\")") fuel p

/-- Model of `Uploader.file_remove` (uploader.py:284-289). -/
def file_remove (path : List Nat) (fuel : Nat) (p : Port) : List Nat × Port :=
  exchange (strBytes "file.remove(\"" ++ path ++ strBytes "\")") fuel p

/-! ### Reassembly, from the claim's words

The payload of a received frame as the device-side receiver reads it:
delimited by the transmitted length byte, not by the padded frame
length. -/

/-- Payload of a frame, delimited by its transmitted length byte. -/
def framePayload (frame : List Nat) : List Nat :=
  match frame with
  | _ :: n :: rest => rest.take n
  | _ => []

/-- Reassembly: concatenate the payloads of a sequence of frames. -/
def reassemble (frames : List (List Nat)) : List Nat :=
  (frames.map framePayload).flatten

/-- The assumed well-formed shape of one `download_file` chunk response
(claim C5): command echo, newline, size line, newline, payload. -/
def chunkResponse (r : List Nat × List Nat × List Nat) : List Nat :=
  r.1 ++ (10 :: (r.2.1 ++ (10 :: r.2.2)))

/-- Well-formedness of one assumed response: no newline in the echo or
the size line, and the size line parses to the common reported size. -/
def wfResponse (size : Nat) (r : List Nat × List Nat × List Nat) : Prop :=
  10 ∉ r.1 ∧ 10 ∉ r.2.1 ∧ pyInt r.2.1 = some (size : Int)

instance wfResponseDecidable (size : Nat) (r : List Nat × List Nat × List Nat) :
    Decidable (wfResponse size r) := by
  unfold wfResponse
  infer_instance


/-! ## Lemmas about the expect engine -/

lemma expectLoop_state (exp : List Nat) (fuel : Nat) :
    ∀ (data : List Nat) (p : Port),
      (expectLoop exp fuel data p).2.timeout = p.timeout
      ∧ (expectLoop exp fuel data p).2.baud = p.baud
      ∧ (expectLoop exp fuel data p).2.rts = p.rts
      ∧ (expectLoop exp fuel data p).2.dtr = p.dtr
      ∧ (expectLoop exp fuel data p).2.output = p.output
      ∧ (expectLoop exp fuel data p).2.errorLog = p.errorLog := by
  induction fuel with
  | zero =>
    intro data p
    unfold expectLoop
    split <;> simp
  | succ n ih =>
    intro data p
    unfold expectLoop
    split
    · simp
    · cases h : p.input with
      | nil => simpa [h] using ih data p
      | cons b rest => simpa [h] using ih (data ++ [b]) { p with input := rest }

/-- The conditional poll-timeout assignment of `expect` always leaves
the port at the 100 microsecond poll timeout. -/
lemma port_poll_timeout (p : Port) :
    (if p.timeout ≠ 100 then { p with timeout := 100 } else p)
      = { p with timeout := 100 } := by
  split
  · rfl
  · next h =>
    have h100 : p.timeout = 100 := by omega
    rw [← h100]

/-- Rewriting `expect` in saved-set-loop-restore form. -/
lemma expect_eq (exp : List Nat) (fuel : Nat) (p : Port) :
    expect exp fuel p
      = ((expectLoop exp fuel [] { p with timeout := 100 }).1,
         { (expectLoop exp fuel [] { p with timeout := 100 }).2 with
             timeout := p.timeout }) := by
  unfold expect
  rw [port_poll_timeout]

lemma expect_state (exp : List Nat) (fuel : Nat) (p : Port) :
    (expect exp fuel p).2.timeout = p.timeout
    ∧ (expect exp fuel p).2.baud = p.baud
    ∧ (expect exp fuel p).2.rts = p.rts
    ∧ (expect exp fuel p).2.dtr = p.dtr
    ∧ (expect exp fuel p).2.output = p.output
    ∧ (expect exp fuel p).2.errorLog = p.errorLog := by
  rw [expect_eq]
  have h := expectLoop_state exp fuel [] { p with timeout := 100 }
  simp [h.2.1, h.2.2.1, h.2.2.2.1, h.2.2.2.2.1, h.2.2.2.2.2]

lemma exchange_errorLog (out : List Nat) (fuel : Nat) (p : Port) :
    (exchange out fuel p).2.errorLog = p.errorLog := by
  unfold exchange writeln write
  exact (expect_state _ _ _).2.2.2.2.2

/-- One reading step of the expect loop. -/
lemma expectLoop_step (exp : List Nat) (fuel : Nat) (data : List Nat) (p : Port)
    (hns : List.isSuffixOf exp data = false) (b : Nat) (rest : List Nat)
    (hin : p.input = b :: rest) :
    expectLoop exp (fuel + 1) data p
      = expectLoop exp fuel (data ++ [b]) { p with input := rest } := by
  conv_lhs => unfold expectLoop
  rw [hin]
  simp [hns]

/-- The expect loop stops as soon as the accumulated data ends with the
pattern. -/
lemma expectLoop_done (exp : List Nat) (fuel : Nat) (data : List Nat) (p : Port)
    (h : List.isSuffixOf exp data = true) :
    expectLoop exp fuel data p = (data, p) := by
  unfold expectLoop
  rw [h]
  simp

/-- When the device's next bytes are exactly the `'C> '` ready prompt,
`expect('C> ')` consumes exactly those three bytes and returns them
(uploader.py:147). -/
lemma expect_ready_prompt (fuel : Nat) (h : 3 ≤ fuel) (p : Port)
    (rest : List Nat) (hin : p.input = strBytes "C> " ++ rest) :
    expect (strBytes "C> ") fuel p = (strBytes "C> ", { p with input := rest }) := by
  obtain ⟨m, rfl⟩ : ∃ m, fuel = m + 3 := ⟨fuel - 3, by omega⟩
  rw [expect_eq]
  have e1 : expectLoop (strBytes "C> ") (m + 3) []
      { p with timeout := 100 }
      = expectLoop (strBytes "C> ") (m + 2) [67]
        { p with timeout := 100, input := 62 :: 32 :: rest } := by
    have := expectLoop_step (strBytes "C> ") (m + 2) []
      { p with timeout := 100 } (by decide) 67 (62 :: 32 :: rest) (by simp [hin]; rfl)
    simpa using this
  have e2 : expectLoop (strBytes "C> ") (m + 2) [67]
      { p with timeout := 100, input := 62 :: 32 :: rest }
      = expectLoop (strBytes "C> ") (m + 1) [67, 62]
        { p with timeout := 100, input := 32 :: rest } := by
    have := expectLoop_step (strBytes "C> ") (m + 1) [67]
      { p with timeout := 100, input := 62 :: 32 :: rest } (by decide) 62 (32 :: rest) rfl
    simpa using this
  have e3 : expectLoop (strBytes "C> ") (m + 1) [67, 62]
      { p with timeout := 100, input := 32 :: rest }
      = expectLoop (strBytes "C> ") m [67, 62, 32]
        { p with timeout := 100, input := rest } := by
    have := expectLoop_step (strBytes "C> ") m [67, 62]
      { p with timeout := 100, input := 32 :: rest } (by decide) 32 rest rfl
    simpa using this
  rw [e1, e2, e3, expectLoop_done _ _ _ _ (by decide)]
  rfl

/-! ## Lemmas about acknowledgements and chunk frames -/

/-- Lemma: `got_ack` consumes exactly one input byte (none when the device is
silent) and succeeds exactly when that byte is ACK = 0x06. -/
lemma got_ack_eq (p : Port) :
    got_ack p = (p.input.head? == some 6, { p with input := p.input.tail }) := by
  unfold got_ack
  cases h : p.input with
  | nil =>
    have hp : { p with input := ([] : List Nat) } = p := by rw [← h]
    simp [hp]
  | cons b rest => rfl

lemma chunk_frame_eq (c : List Nat) (h : c.length ≤ 128) :
    chunk_frame c = 1 :: c.length :: (c ++ List.replicate (128 - c.length) 32) := by
  unfold chunk_frame
  split
  · simp
  · next hge =>
    have h128 : c.length = 128 := by omega
    simp [h128]

lemma chunk_frame_length (c : List Nat) (h : c.length ≤ 128) :
    (chunk_frame c).length = 130 := by
  rw [chunk_frame_eq c h]
  simp
  omega

/-- Reading a frame's payload back out by its transmitted length byte
recovers the chunk exactly, whatever the padding. -/
lemma framePayload_chunk_frame (c : List Nat) (h : c.length ≤ 128) :
    framePayload (chunk_frame c) = c := by
  rw [chunk_frame_eq c h]
  unfold framePayload
  exact List.take_left c _

lemma splitChunksGo_flatten :
    ∀ (fuel : Nat) (content : List Nat), content.length ≤ fuel →
      ((splitChunksGo fuel content).map
        (fun c => framePayload (chunk_frame c))).flatten = content := by
  intro fuel
  induction fuel with
  | zero =>
    intro content h
    have : content = [] := by
      cases content with
      | nil => rfl
      | cons a l => simp at h
    subst this
    rfl
  | succ n ih =>
    intro content h
    cases content with
    | nil => rfl
    | cons a l =>
      simp only [splitChunksGo, List.map_cons, List.flatten_cons]
      rw [framePayload_chunk_frame _ (by simp)]
      rw [ih ((a :: l).drop 128) (by simp at h ⊢; omega)]
      exact List.take_append_drop 128 (a :: l)

/-! ## Lemmas about the write_file upload loop -/

/-- When the device ACKs every chunk, the loop writes every frame in
order, consumes exactly one ACK byte per chunk, and succeeds. -/
lemma writeChunksLoop_all_ack (fuel : Nat) :
    ∀ (cs : List (List Nat)) (t : List Nat) (p : Port),
      p.input = List.replicate cs.length 6 ++ t →
      writeChunksLoop fuel cs p
        = (true, { p with
                     input := t,
                     output := p.output ++ (cs.map chunk_frame).flatten }) := by
  intro cs
  induction cs with
  | nil =>
    intro t p h
    simp only [List.length_nil, List.replicate_zero, List.nil_append] at h
    subst h
    simp [writeChunksLoop]
  | cons c cs ih =>
    intro t p h
    simp only [List.length_cons, List.replicate_succ, List.cons_append] at h
    simp only [writeChunksLoop, write_chunk, write, got_ack_eq, h,
      List.head?_cons, List.tail_cons, beq_self_eq_true, if_true]
    rw [ih t { p with
                 output := p.output ++ chunk_frame c,
                 input := List.replicate cs.length 6 ++ t } rfl]
    simp [List.append_assoc]

/-- A byte stream whose first byte is missing or not ACK fails the
acknowledgement test. -/
lemma head_ne_ack (t : List Nat) (h : t.head? ≠ some 6) :
    (t.head? == some 6) = false := by
  cases hh : t.head? with
  | none => rfl
  | some b =>
    simp only [hh] at h
    simp
    intro he
    exact h (by rw [he])

/-- When chunk `k` (0-based) is the first whose acknowledgement byte is
missing or not ACK, the loop has written exactly the frames of chunks
`0..k` (the failed chunk's frame included), no terminator, and fails. -/
lemma writeChunksLoop_nack (fuel : Nat) :
    ∀ (cs : List (List Nat)) (k : Nat) (t : List Nat) (p : Port),
      k < cs.length → t.head? ≠ some 6 →
      p.input = List.replicate k 6 ++ t →
      (writeChunksLoop fuel cs p).1 = false
      ∧ (writeChunksLoop fuel cs p).2.output
          = p.output ++ ((cs.take (k + 1)).map chunk_frame).flatten := by
  intro cs
  induction cs with
  | nil =>
    intro k t p hk
    simp at hk
  | cons c cs ih =>
    intro k t p hk ht h
    cases k with
    | zero =>
      simp only [List.replicate_zero, List.nil_append] at h
      simp only [writeChunksLoop, write_chunk, write, got_ack_eq, h,
        head_ne_ack t ht, Bool.false_eq_true, if_false]
      refine ⟨trivial, ?_⟩
      have hout := (expect_state (strBytes "> ") fuel
        { p with output := p.output ++ chunk_frame c, input := t.tail }).2.2.2.2.1
      simp only [hout]
      simp
    | succ k =>
      simp only [List.replicate_succ, List.cons_append] at h
      simp only [writeChunksLoop, write_chunk, write, got_ack_eq, h,
        List.head?_cons, List.tail_cons, beq_self_eq_true, if_true]
      have := ih k t
        { p with
            output := p.output ++ chunk_frame c,
            input := List.replicate k 6 ++ t }
        (by simpa using Nat.lt_of_succ_lt_succ hk) ht rfl
      refine ⟨this.1, ?_⟩
      rw [this.2]
      simp [List.append_assoc]

/-! ## Behaviour of write_file on structured device streams -/

/-- Success path of `write_file`: ready prompt, filename ACK, one ACK
per data chunk; the host writes `recv()\n`, the filename, every frame
and the terminator frame, and consumes exactly one further input byte
(if any) as the terminator's acknowledgement. -/
lemma write_file_ok (fuel : Nat) (hf : 3 ≤ fuel)
    (path destination content rest : List Nat) (p : Port)
    (hin : p.input = strBytes "C> "
      ++ 6 :: (List.replicate (splitChunks content).length 6 ++ rest)) :
    write_file fuel path destination content p
      = (.success,
         { p with
             input := rest.tail,
             output := p.output ++ strBytes "recv()" ++ [10]
               ++ write_file_destination path destination ++ [0]
               ++ ((splitChunks content).map chunk_frame).flatten
               ++ chunk_frame [] }) := by
  have hq : (writeln (strBytes "recv()") p).input
      = strBytes "C> "
        ++ (6 :: (List.replicate (splitChunks content).length 6 ++ rest)) := by
    simp [writeln, write, hin]
  simp only [write_file]
  rw [expect_ready_prompt fuel hf _ _ hq]
  simp only [show List.isSuffixOf (strBytes "C> ") (strBytes "C> ") = true from by decide,
    not_true, if_false, write, got_ack_eq, List.head?_cons, List.tail_cons,
    beq_self_eq_true, writeln]
  rw [writeChunksLoop_all_ack fuel (splitChunks content) rest _ rfl]
  simp only [write_chunk, write, got_ack_eq]
  simp [List.append_assoc]

/-- Filename-acknowledgement failure path of `write_file`: when the
byte after the ready prompt is missing or not ACK, the transfer stops
having written only `recv()\n` and the NUL-terminated filename — no
chunk frame and no terminator. -/
lemma write_file_no_filename_ack (fuel : Nat) (hf : 3 ≤ fuel)
    (path destination content rest : List Nat) (p : Port)
    (hin : p.input = strBytes "C> " ++ rest)
    (hrest : rest.head? ≠ some 6) :
    write_file fuel path destination content p
      = (.errNoFilenameAck,
         { p with
             input := rest.tail,
             output := p.output ++ strBytes "recv()" ++ [10]
               ++ write_file_destination path destination ++ [0],
             errorLog := p.errorLog
               ++ [strBytes "did not ack destination filename"] }) := by
  have hq : (writeln (strBytes "recv()") p).input = strBytes "C> " ++ rest := by
    simp [writeln, write, hin]
  simp only [write_file]
  rw [expect_ready_prompt fuel hf _ _ hq]
  simp only [show List.isSuffixOf (strBytes "C> ") (strBytes "C> ") = true from by decide,
    not_true, if_false, write, got_ack_eq, head_ne_ack rest hrest,
    Bool.false_eq_true, writeln]
  simp [List.append_assoc]

/-- Data-chunk NACK path of `write_file`: when the first `k` chunk
acknowledgements are ACK but chunk `k`'s is a non-ACK byte, the
transfer aborts with exactly the frames of chunks `0..k` written — no
later chunk and no terminator — and no retry of the failed chunk. -/
lemma write_file_chunk_nack (fuel : Nat) (hf : 3 ≤ fuel)
    (path destination content : List Nat) (k : Nat) (t : List Nat) (p : Port)
    (hk : k < (splitChunks content).length) (ht : t.head? ≠ some 6)
    (hin : p.input = strBytes "C> " ++ 6 :: (List.replicate k 6 ++ t)) :
    (write_file fuel path destination content p).1 = .errBadChunk
    ∧ (write_file fuel path destination content p).2.output
        = p.output ++ strBytes "recv()" ++ [10]
          ++ write_file_destination path destination ++ [0]
          ++ (((splitChunks content).take (k + 1)).map chunk_frame).flatten := by
  have hq : (writeln (strBytes "recv()") p).input
      = strBytes "C> " ++ (6 :: (List.replicate k 6 ++ t)) := by
    simp [writeln, write, hin]
  simp only [write_file]
  rw [expect_ready_prompt fuel hf _ _ hq]
  simp only [show List.isSuffixOf (strBytes "C> ") (strBytes "C> ") = true from by decide,
    not_true, if_false, write, got_ack_eq, List.head?_cons, List.tail_cons,
    beq_self_eq_true, writeln]
  have hl := writeChunksLoop_nack fuel (splitChunks content) k t
    { p with
        output := (p.output ++ (strBytes "recv()" ++ [10]))
          ++ (write_file_destination path destination ++ [0]),
        input := List.replicate k 6 ++ t }
    hk ht rfl
  simp only [hl.1, Bool.false_eq_true, if_false]
  refine ⟨by simp, ?_⟩
  simp only [hl.2]
  simp [List.append_assoc]

/-! ## Lemmas about the download protocol -/

lemma splitOnFirst_not_mem (b : Nat) :
    ∀ (l r : List Nat), b ∉ l →
      splitOnFirst b (l ++ b :: r) = some (l, r) := by
  intro l
  induction l with
  | nil =>
    intro r _
    simp [splitOnFirst]
  | cons x xs ih =>
    intro r h
    have hx : ¬ x = b := fun he => h (by simp [he])
    have hxs : b ∉ xs := fun hm => h (List.mem_cons_of_mem x hm)
    simp only [List.cons_append, splitOnFirst, if_neg hx, List.append_eq]
    rw [ih r hxs]
    rfl

/-- A well-formed chunk response (echo without newline, size line
without newline, payload) splits into exactly its three components. -/
lemma split3_chunkResponse (r : List Nat × List Nat × List Nat)
    (he : 10 ∉ r.1) (hs : 10 ∉ r.2.1) :
    split3 (chunkResponse r) = some r := by
  have h1 : splitOnFirst 10 (chunkResponse r)
      = some (r.1, r.2.1 ++ 10 :: r.2.2) := by
    unfold chunkResponse
    exact splitOnFirst_not_mem 10 r.1 _ he
  unfold split3
  rw [h1]
  conv_lhs => whnf
  rw [splitOnFirst_not_mem 10 r.2.1 r.2.2 hs]

lemma pySliceTo_ofNat (n : Nat) (l : List Nat) :
    pySliceTo (n : Int) l = l.take n := by
  unfold pySliceTo
  rw [if_pos (Int.ofNat_nonneg n)]
  simp

lemma pySliceTo_256 (l : List Nat) :
    pySliceTo 256 l = l.take 256 := by
  have : ((256 : Nat) : Int) = (256 : Int) := by norm_num
  rw [← this, pySliceTo_ofNat]

/-- Main loop invariant run: starting at `bytes_read` with `rs` the
responses that will be consumed before the loop breaks, the loop
returns the accumulator extended by the first 256 bytes of every
payload, paired with the reported size. -/
lemma downloadLoop_run (size : Nat) :
    ∀ (rs : List (List Nat × List Nat × List Nat)) (junk : List (List Nat))
      (bytes_read : Nat) (data : List Nat) (fuel : Nat),
      rs ≠ [] →
      (∀ r ∈ rs, wfResponse size r) →
      rs.length ≤ fuel →
      bytes_read + 256 * (rs.length - 1) ≤ size →
      size < bytes_read + 256 * rs.length →
      downloadLoop fuel (rs.map chunkResponse ++ junk) bytes_read data
        = some (data ++ (rs.map (fun r => r.2.2.take 256)).flatten, (size : Int)) := by
  intro rs
  induction rs with
  | nil => intro junk bytes_read data fuel hne; exact absurd rfl hne
  | cons r rs ih =>
    intro junk bytes_read data fuel _ hwf hfuel hlo hhi
    obtain ⟨f, rfl⟩ : ∃ f, fuel = f + 1 := ⟨fuel - 1, by omega⟩
    obtain ⟨he, hs, hp⟩ := hwf r (List.mem_cons_self r rs)
    simp only [downloadLoop, List.map_cons, List.cons_append, List.headD_cons,
      split3_chunkResponse r he hs, hp, List.tail_cons, pySliceTo_256]
    cases rs with
    | nil =>
      have hbreak : ((bytes_read + 256 : Nat) : Int) > (size : Int) := by
        push_cast
        simp at hhi
        omega
      rw [if_pos hbreak]
      simp
    | cons q qs =>
      have hnobreak : ¬ ((bytes_read + 256 : Nat) : Int) > (size : Int) := by
        push_cast
        simp only [List.length_cons] at hlo
        push_cast at hlo
        omega
      rw [if_neg hnobreak]
      rw [ih junk (bytes_read + 256) (data ++ (r.2.2.take 256)) f
        (by simp) (fun x hx => hwf x (List.mem_cons_of_mem r hx))
        (by simp at hfuel ⊢; omega)
        (by simp only [List.length_cons] at hlo ⊢; omega)
        (by simp only [List.length_cons] at hhi ⊢; omega)]
      simp [List.append_assoc]

/-- If the first `k` responses are well formed and keep the loop going,
and response `k` cannot be split into three parts, the loop returns
nothing at all. -/
lemma downloadLoop_abort (size : Nat) :
    ∀ (rs : List (List Nat × List Nat × List Nat)) (d : List Nat)
      (junk : List (List Nat)) (bytes_read : Nat) (data : List Nat) (fuel : Nat),
      (∀ r ∈ rs, wfResponse size r) →
      bytes_read + 256 * rs.length ≤ size →
      rs.length < fuel →
      split3 d = none →
      downloadLoop fuel (rs.map chunkResponse ++ d :: junk) bytes_read data = none := by
  intro rs
  induction rs with
  | nil =>
    intro d junk bytes_read data fuel _ _ hfuel hbad
    obtain ⟨f, rfl⟩ : ∃ f, fuel = f + 1 := ⟨fuel - 1, by omega⟩
    simp only [downloadLoop, List.map_nil, List.nil_append, List.headD_cons, hbad]
  | cons r rs ih =>
    intro d junk bytes_read data fuel hwf hsz hfuel hbad
    obtain ⟨f, rfl⟩ : ∃ f, fuel = f + 1 := ⟨fuel - 1, by omega⟩
    obtain ⟨he, hs, hp⟩ := hwf r (List.mem_cons_self r rs)
    simp only [downloadLoop, List.map_cons, List.cons_append, List.headD_cons,
      split3_chunkResponse r he hs, hp, List.tail_cons, pySliceTo_256]
    have hnobreak : ¬ ((bytes_read + 256 : Nat) : Int) > (size : Int) := by
      push_cast
      simp only [List.length_cons] at hsz
      omega
    rw [if_neg hnobreak]
    exact ih d junk (bytes_read + 256) (data ++ (r.2.2.take 256)) f
      (fun x hx => hwf x (List.mem_cons_of_mem r hx))
      (by simp only [List.length_cons] at hsz ⊢; omega)
      (by simp at hfuel ⊢; omega) hbad

/-! ## Claim theorems -/

/-- C1: for every byte sequence `S` read from the local file, the chunk
slicing of `write_file` (consecutive chunks of at most 128 bytes, in
order) followed by reassembly of the transmitted frames — taking each
frame's payload as delimited by its transmitted length byte, not by the
padded 130-byte frame length — reconstructs `S` exactly. -/
theorem upload_chunking_roundtrip (S : List Nat) :
    reassemble ((splitChunks S).map chunk_frame) = S := by
  unfold reassemble splitChunks
  rw [List.map_map]
  exact splitChunksGo_flatten S.length S (le_refl _)

/-- C2: every frame built by `write_chunk` for a payload of length
`n ≤ 128` is exactly 130 bytes — marker 0x01, length byte `n`, the
payload, then `128 - n` spaces — and the zero-length terminator frame
is the fixed 130-byte string 0x01, 0x00, 128 spaces.  `chunk_frame` is
a pure function of the chunk alone, so the terminator is bit-for-bit
identical regardless of any preceding chunk. -/
theorem chunk_frame_layout (c : List Nat) (h : c.length ≤ 128) :
    (chunk_frame c).length = 130
    ∧ chunk_frame c = 1 :: c.length :: (c ++ List.replicate (128 - c.length) 32)
    ∧ chunk_frame [] = 1 :: 0 :: List.replicate 128 32 :=
  ⟨chunk_frame_length c h, chunk_frame_eq c h, by decide⟩

theorem chunk_frame_layout_witness :
    ([5, 6, 7] : List Nat).length ≤ 128 ∧ (chunk_frame [5, 6, 7]).length = 130 :=
  ⟨by decide, (chunk_frame_layout [5, 6, 7] (by decide)).1⟩

/-- C3 (evaluation at the failing input): against a device that never
replies, the sync expect of `Uploader.__init__` (uploader.py:44) times
out without the pattern `'%sync%\r\n> '` matching, yet construction
completes normally — the expect result is discarded, no error is
logged, and a session (with its line counter initialised) is returned.
This contradicts the claim that a sync timeout surfaces a fatal setup
error and yields no usable session. -/
theorem init_sync_timeout_not_surfaced :
    (uploader_init 100 9600 []).1.line_number = 0
    ∧ (uploader_init 100 9600 []).1.port.errorLog = []
    ∧ List.isSuffixOf (strBytes "%sync%\r\n> ") (uploader_init 100 9600 []).2
        = false := by
  decide

/-- C4: during `write_file`, one acknowledgement byte is read after the
NUL-terminated filename and after every data-chunk frame; whenever that
byte is missing or differs from 0x06, the transfer aborts — the host's
written bytes end at the failed step (no further chunk, no terminator,
no retry). -/
theorem write_file_ack_required (fuel : Nat) (path destination content : List Nat)
    (hf : 3 ≤ fuel) :
    (∀ (rest : List Nat) (p : Port),
      p.input = strBytes "C> " ++ rest →
      rest.head? ≠ some 6 →
      (write_file fuel path destination content p).1 = .errNoFilenameAck
      ∧ (write_file fuel path destination content p).2.output
          = p.output ++ strBytes "recv()" ++ [10]
            ++ write_file_destination path destination ++ [0])
    ∧ (∀ (k : Nat) (t : List Nat) (p : Port),
      k < (splitChunks content).length →
      t.head? ≠ some 6 →
      p.input = strBytes "C> " ++ 6 :: (List.replicate k 6 ++ t) →
      (write_file fuel path destination content p).1 = .errBadChunk
      ∧ (write_file fuel path destination content p).2.output
          = p.output ++ strBytes "recv()" ++ [10]
            ++ write_file_destination path destination ++ [0]
            ++ (((splitChunks content).take (k + 1)).map chunk_frame).flatten) := by
  constructor
  · intro rest p hin hrest
    rw [write_file_no_filename_ack fuel hf path destination content rest p hin hrest]
    exact ⟨rfl, by simp [List.append_assoc]⟩
  · intro k t p hk ht hin
    exact write_file_chunk_nack fuel hf path destination content k t p hk ht hin

theorem write_file_ack_required_witness :
    (write_file 3 (strBytes "a.lua") [] [97]
        (mkPort (strBytes "C> " ++ [7]))).1 = WriteResult.errNoFilenameAck
    ∧ (write_file 3 (strBytes "a.lua") [] [97]
        (mkPort (strBytes "C> " ++ [6, 5]))).1 = WriteResult.errBadChunk := by
  have h := write_file_ack_required 3 (strBytes "a.lua") [] [97] (by decide)
  exact ⟨(h.1 [7] (mkPort (strBytes "C> " ++ [7])) rfl (by decide)).1,
         (h.2 0 [5] (mkPort (strBytes "C> " ++ [6, 5])) (by decide) (by decide) rfl).1⟩

/-- C5: assuming every chunk response splits into an echo line, a
decimal size line and a payload, all reporting the same size, the
download loop runs exactly `size / 256 + 1` iterations (offset
advancing by 256 until the cumulative bytes requested strictly exceed
the size) and the returned data is exactly the first `size` bytes of
the concatenated per-response payloads, each contributing at most 256
bytes, independent of any further payload bytes and of any further
responses. -/
theorem download_reassembles_payloads (fuel size : Nat)
    (rs : List (List Nat × List Nat × List Nat)) (junk : List (List Nat))
    (hwf : ∀ r ∈ rs, wfResponse size r)
    (hlen : rs.length = size / 256 + 1)
    (hfuel : rs.length ≤ fuel) :
    download_file fuel (rs.map chunkResponse ++ junk)
      = some (((rs.map (fun r => r.2.2.take 256)).flatten).take size) := by
  unfold download_file
  rw [downloadLoop_run size rs junk 0 [] fuel
    (List.length_pos.mp (by omega)) hwf hfuel (by omega) (by omega)]
  simp [pySliceTo_ofNat]

theorem download_reassembles_payloads_witness :
    download_file 2 [[101, 10, 51, 10, 97, 98, 99, 100], [9]] = some [97, 98, 99] := by
  have h := download_reassembles_payloads 2 3 [([101], [51], [97, 98, 99, 100])]
    [[9]] (by decide) (by decide) (by decide)
  simpa using h

/-- C6: if any chunk response reached by the download loop cannot be
split on newlines into the three expected components, `download_file`
aborts (the unpacking `ValueError`, modelled as `none`) and returns no
partial result. -/
theorem download_split_failure_aborts (fuel size : Nat)
    (rs : List (List Nat × List Nat × List Nat)) (d : List Nat)
    (junk : List (List Nat))
    (hwf : ∀ r ∈ rs, wfResponse size r)
    (hbad : split3 d = none)
    (hsz : 256 * rs.length ≤ size)
    (hfuel : rs.length < fuel) :
    download_file fuel (rs.map chunkResponse ++ d :: junk) = none := by
  unfold download_file
  rw [downloadLoop_abort size rs d junk 0 [] fuel hwf (by omega) hfuel hbad]

theorem download_split_failure_aborts_witness :
    download_file 1 [[]] = none := by
  have h := download_split_failure_aborts 1 0 [] [] [] (by simp)
    (by decide) (by decide) (by decide)
  simpa using h

/-- C7: `expect` polls with the transport's read timeout overridden to
0.0001 s (100 µs, visible as the loop running on the port with
`timeout := 100`) and restores the previously configured timeout before
returning — the final timeout equals the original in every case,
matched or timed out — while no other transport configuration (baud,
RTS, DTR) is changed. -/
theorem expect_restores_timeout (e : List Nat) (fuel : Nat) (p : Port) :
    expect e fuel p
      = ((expectLoop e fuel [] { p with timeout := 100 }).1,
         { (expectLoop e fuel [] { p with timeout := 100 }).2 with
             timeout := p.timeout })
    ∧ (expect e fuel p).2.timeout = p.timeout
    ∧ (expect e fuel p).2.baud = p.baud
    ∧ (expect e fuel p).2.rts = p.rts
    ∧ (expect e fuel p).2.dtr = p.dtr := by
  have h := expect_state e fuel p
  exact ⟨expect_eq e fuel p, h.1, h.2.1, h.2.2.1, h.2.2.2.1⟩

/-- C8: every admin operation is a single `exchange` call returning the
raw response (they are total functions — nothing is raised on an
unexpected response) and none of them ever logs an error except
`file_format`, which decides success solely by whether `'format done'`
occurs in the response, logging the response as an error otherwise while
still returning it unchanged. -/
theorem admin_ops_single_exchange (fuel : Nat) (p : Port) (f path : List Nat) :
    file_list fuel p
      = exchange (strBytes "for key,value in pairs(file.list()) do print(key,value) end") fuel p
    ∧ file_do f fuel p = exchange (strBytes "dofile(\"" ++ f ++ strBytes "\")") fuel p
    ∧ node_heap fuel p = exchange (strBytes "print(node.heap())") fuel p
    ∧ node_restart fuel p = exchange (strBytes "node.restart()") fuel p
    ∧ file_compile path fuel p
        = exchange (strBytes "node.compile(\"" ++ path ++ strBytes "\")") fuel p
    ∧ file_remove path fuel p
        = exchange (strBytes "file.remove(\"" ++ path ++ strBytes "\")") fuel p
    ∧ (file_list fuel p).2.errorLog = p.errorLog
    ∧ (file_format fuel p).1 = (exchange (strBytes "file.format()") fuel p).1
    ∧ (file_format fuel p).2.errorLog
        = (if containsSub (strBytes "format done") (file_format fuel p).1
           then p.errorLog
           else p.errorLog ++ [(file_format fuel p).1]) := by
  have hlog := exchange_errorLog (strBytes "file.format()") fuel p
  refine ⟨rfl, rfl, rfl, rfl, rfl, rfl, exchange_errorLog _ fuel p, ?_, ?_⟩
  · by_cases hc : containsSub (strBytes "format done")
        (exchange (strBytes "file.format()") fuel p).1 = true
    · simp [file_format, hc]
    · simp only [Bool.not_eq_true] at hc
      simp [file_format, hc]
  · by_cases hc : containsSub (strBytes "format done")
        (exchange (strBytes "file.format()") fuel p).1 = true
    · simp [file_format, hc, hlog]
    · simp only [Bool.not_eq_true] at hc
      simp [file_format, hc, hlog]

/-- C9: on the success path, after the last data chunk `write_file`
always sends the zero-length terminator frame and reads (at most) one
acknowledgement byte for it, whose value is discarded: the result and
the entire final transport state are the same whatever that byte is, so
every subsequent step (any verification, the return value) behaves
identically whether or not the terminator was ACKed. -/
theorem write_file_terminator_ack_discarded (fuel : Nat)
    (path destination content : List Nat) (b : Nat) (t : List Nat)
    (hf : 3 ≤ fuel) :
    (∀ rest : List Nat,
      write_file fuel path destination content
          (mkPort (strBytes "C> "
            ++ 6 :: (List.replicate (splitChunks content).length 6 ++ rest)))
        = (.success,
           { mkPort rest.tail with
               output := strBytes "recv()" ++ [10]
                 ++ write_file_destination path destination ++ [0]
                 ++ ((splitChunks content).map chunk_frame).flatten
                 ++ chunk_frame [] }))
    ∧ write_file fuel path destination content
          (mkPort (strBytes "C> "
            ++ 6 :: (List.replicate (splitChunks content).length 6 ++ (b :: t))))
        = write_file fuel path destination content
            (mkPort (strBytes "C> "
              ++ 6 :: (List.replicate (splitChunks content).length 6 ++ (6 :: t)))) := by
  constructor
  · intro rest
    rw [write_file_ok fuel hf path destination content rest (mkPort _) rfl]
    rfl
  · rw [write_file_ok fuel hf path destination content (b :: t) (mkPort _) rfl]
    rw [write_file_ok fuel hf path destination content (6 :: t) (mkPort _) rfl]
    rfl

theorem write_file_terminator_ack_discarded_witness :
    write_file 3 (strBytes "a.lua") [] [97] (mkPort (strBytes "C> " ++ [6, 6, 0]))
      = write_file 3 (strBytes "a.lua") [] [97]
          (mkPort (strBytes "C> " ++ [6, 6, 6])) := by
  have h := write_file_terminator_ack_discarded 3 (strBytes "a.lua") [] [97] 0 []
    (by decide)
  simpa using h.2

/-- C10: with an empty destination argument, `write_file` uses the base
name of the local source path as the remote filename and `read_file`
uses the remote filename itself as the local destination path; a
non-empty destination is used exactly as given. -/
theorem destination_default_selection (path destination filename : List Nat)
    (hd : destination ≠ []) :
    write_file_destination path [] = basename path
    ∧ read_file_destination filename [] = filename
    ∧ write_file_destination path destination = destination
    ∧ read_file_destination filename destination = destination := by
  refine ⟨by simp [write_file_destination], by simp [read_file_destination],
    by simp [write_file_destination, hd], by simp [read_file_destination, hd]⟩

theorem destination_default_selection_witness :
    write_file_destination (strBytes "dir/init.lua") [] = strBytes "init.lua"
    ∧ write_file_destination (strBytes "dir/init.lua") (strBytes "other.lua")
        = strBytes "other.lua" := by
  have h := destination_default_selection (strBytes "dir/init.lua")
    (strBytes "other.lua") (strBytes "x") (by decide)
  exact ⟨by rw [h.1]; decide, h.2.2.1⟩

end NodeMCU
